import Mathlib

/-!
# Verification of the calendar MCP server

Shallow embedding of the event-calendar repository: the proleptic-Gregorian
calendar arithmetic used by the recurrence engine, the event store
operations, the plan materialization, the ICS date codec, and the
client-side logic of `public/script.js` (recurrence prompt, project-goal
flow, HTML escaping, and the MCP request payloads).

The server core (`main.py`) is not part of the available sources; the
definitions for it are modelled from the specification, as marked in their
doc comments.  The client logic is translated directly from
`public/script.js`.
-/

namespace CalendarMcp

/-! ## Calendar dates (proleptic Gregorian) -/

/-- Modelled from the spec: calendar dates `YYYY-MM-DD` used throughout the
recurrence engine and the codecs (spec sections 3, 4.1, 4.4). -/
structure Date where
  y : Nat
  m : Nat
  d : Nat
deriving DecidableEq, Repr

/-- Gregorian leap-year rule. -/
def isLeap (y : Nat) : Bool :=
  (y % 4 == 0 && y % 100 != 0) || y % 400 == 0

/-- Days in a month; `0` for month numbers outside `1..12`. -/
def daysInMonth (y m : Nat) : Nat :=
  if m = 2 then (if isLeap y then 29 else 28)
  else if m = 4 || m = 6 || m = 9 || m = 11 then 30
  else if 1 ≤ m && m ≤ 12 then 31
  else 0

def daysInYear (y : Nat) : Nat :=
  if isLeap y then 366 else 365

/-- Days in all years before year `y` (epoch = year 0): 365 per year plus
one per leap year in `0..y-1`, counted in closed form. -/
def daysBeforeYear (y : Nat) : Nat :=
  365 * y + (y + 3) / 4 + (y + 399) / 400 - (y + 99) / 100

/-- Days in the months of year `y` strictly before month `m`. -/
def daysBeforeMonth (y : Nat) : Nat → Nat
  | 0 => 0
  | m + 1 => daysBeforeMonth y m + daysInMonth y m

/-- Rata-die style day number of a date; strictly monotone on valid dates. -/
def toRD (dt : Date) : Nat :=
  daysBeforeYear dt.y + daysBeforeMonth dt.y dt.m + dt.d

/-- A date is valid when its month is in `1..12` and its day is in
`1..daysInMonth` (spec 4.1: month 13 or day 32 are rejected, not clamped). -/
def validDate (dt : Date) : Bool :=
  1 ≤ dt.m && dt.m ≤ 12 && 1 ≤ dt.d && dt.d ≤ daysInMonth dt.y dt.m

/-- Successor date: the next calendar day. -/
def nextDay (dt : Date) : Date :=
  if dt.d < daysInMonth dt.y dt.m then ⟨dt.y, dt.m, dt.d + 1⟩
  else if dt.m < 12 then ⟨dt.y, dt.m + 1, 1⟩
  else ⟨dt.y + 1, 1, 1⟩

/-- Advance a date by `n` calendar days. -/
def addDays (dt : Date) (n : Nat) : Date :=
  Nat.rec dt (fun _ acc => nextDay acc) n

/-- Day of week as a residue mod 7 of the day number. -/
def dow (dt : Date) : Nat :=
  toRD dt % 7

/-! ## Recurrence engine (spec 4.4) -/

/-- Modelled from the spec: the nine recurrence frequencies accepted by
`set_recurrence` (spec 4.4 and the client buttons in `showRecurrencePrompt`). -/
inductive Frequency
  | none
  | daily
  | every_other_day
  | weekly
  | biweekly
  | weekdays
  | monthly
  | monthly_on_day
  | custom
deriving DecidableEq, Repr

/-- Saturday's day-of-week residue under `dow`. -/
def satDow : Nat := 1

/-- Sunday's day-of-week residue under `dow`. -/
def sunDow : Nat := 2

/-- Modelled from the spec: "next weekday skipping Sat/Sun" — advance one
day, then skip over a weekend if one was hit. -/
def nextWeekday (dt : Date) : Date :=
  let d1 := nextDay dt
  if dow d1 = satDow then addDays d1 2
  else if dow d1 = sunDow then nextDay d1
  else d1

/-- First month after `(y, m)`. -/
def nextMonthOf (y m : Nat) : Nat × Nat :=
  if m = 12 then (y + 1, 1) else (y, m + 1)

/-- Modelled from the spec: advance by one calendar month, clamping the day
to the target month's length. -/
def addOneMonth (dt : Date) : Date :=
  let p := nextMonthOf dt.y dt.m
  ⟨p.1, p.2, min dt.d (daysInMonth p.1 p.2)⟩

/-- Modelled from the spec: the fixed step of each stepping frequency
(1 day, 2 days, 7 days, 14 days, next weekday, 1 calendar month, or
`interval` days for `custom`); `none` and `monthly_on_day` do not step. -/
def stepOnceFor (f : Frequency) (interval : Nat) : Date → Date :=
  match f with
  | .daily => fun dt => addDays dt 1
  | .every_other_day => fun dt => addDays dt 2
  | .weekly => fun dt => addDays dt 7
  | .biweekly => fun dt => addDays dt 14
  | .weekdays => nextWeekday
  | .monthly => addOneMonth
  | .custom => fun dt => addDays dt interval
  | _ => id

/-- Whether a frequency uses the stepping algorithm. -/
def steppingFreq (f : Frequency) : Bool :=
  match f with
  | .daily | .every_other_day | .weekly | .biweekly | .weekdays | .monthly | .custom => true
  | _ => false

/-- Modelled from the spec: repeatedly advance the current date by the step
until the result is on/after "now"; fuel bounds the search. -/
def nextDueAux (step : Date → Date) (now : Date) : Nat → Date → Option Date
  | 0, _ => Option.none
  | fuel + 1, cur =>
    if toRD now ≤ toRD cur then some cur
    else nextDueAux step now fuel (step cur)

/-- Modelled from the spec: `next_due` computation for the stepping
frequencies, starting from the event's anchor date (spec 4.4). -/
def nextDue (f : Frequency) (interval : Nat) (now anchor : Date) : Option Date :=
  nextDueAux (stepOnceFor f interval) now 1000 anchor

/-- Clamp a target day-of-month to the length of month `(y, m)`. -/
def clampDay (y m target : Nat) : Nat :=
  min target (daysInMonth y m)

/-- Modelled from the spec: `monthly_on_day` — the soonest date on/after
"now" whose day-of-month is the target day, clamped to the last valid day
of months shorter than the target (spec 4.4). -/
def monthlyOnDay (target : Nat) (now : Date) : Date :=
  if toRD now ≤ toRD ⟨now.y, now.m, clampDay now.y now.m target⟩ then
    ⟨now.y, now.m, clampDay now.y now.m target⟩
  else
    ⟨(nextMonthOf now.y now.m).1, (nextMonthOf now.y now.m).2,
      clampDay (nextMonthOf now.y now.m).1 (nextMonthOf now.y now.m).2 target⟩

/-! ## ICS date codec and ISO date parsing (spec 4.1, 4.5) -/

/-- The character for a single decimal digit `0..9`. -/
def digitChar (n : Nat) : Char := Char.ofNat (48 + n)

/-- Numeric value of a decimal digit character. -/
def digitVal (c : Char) : Nat := c.toNat - 48

/-- Modelled from the spec: parse an ISO `YYYY-MM-DD` date string, rejecting
out-of-range month/day values rather than clamping them (spec 4.1). -/
def parseISODate (s : String) : Option Date :=
  match s.data with
  | [y1, y2, y3, y4, s1, m1, m2, s2, d1, d2] =>
    if y1.isDigit && y2.isDigit && y3.isDigit && y4.isDigit && s1 == '-' &&
       m1.isDigit && m2.isDigit && s2 == '-' && d1.isDigit && d2.isDigit then
      let y := 1000 * digitVal y1 + 100 * digitVal y2 + 10 * digitVal y3 + digitVal y4
      let m := 10 * digitVal m1 + digitVal m2
      let d := 10 * digitVal d1 + digitVal d2
      if validDate ⟨y, m, d⟩ then some ⟨y, m, d⟩ else Option.none
    else Option.none
  | _ => Option.none

/-- Render a date in ISO `YYYY-MM-DD` form (4-digit year). -/
def formatISODate (dt : Date) : String :=
  ⟨[digitChar (dt.y / 1000 % 10), digitChar (dt.y / 100 % 10),
    digitChar (dt.y / 10 % 10), digitChar (dt.y % 10), '-',
    digitChar (dt.m / 10 % 10), digitChar (dt.m % 10), '-',
    digitChar (dt.d / 10 % 10), digitChar (dt.d % 10)]⟩

/-- Modelled from the spec: the ICS codec's date formatting, the `YYYYMMDD`
value of a date-only `DTSTART;VALUE=DATE:` property (spec 4.5). -/
def formatICSDate (dt : Date) : String :=
  ⟨[digitChar (dt.y / 1000 % 10), digitChar (dt.y / 100 % 10),
    digitChar (dt.y / 10 % 10), digitChar (dt.y % 10),
    digitChar (dt.m / 10 % 10), digitChar (dt.m % 10),
    digitChar (dt.d / 10 % 10), digitChar (dt.d % 10)]⟩

/-- The full `DTSTART` content line the codec emits for a date-only event. -/
def dtstartLine (dt : Date) : String :=
  "DTSTART;VALUE=DATE:" ++ formatICSDate dt

/-- Parse the `YYYYMMDD` digits of an ICS date value back into a date. -/
def parseICSDate (s : String) : Option Date :=
  match s.data with
  | [y1, y2, y3, y4, m1, m2, d1, d2] =>
    if y1.isDigit && y2.isDigit && y3.isDigit && y4.isDigit &&
       m1.isDigit && m2.isDigit && d1.isDigit && d2.isDigit then
      let y := 1000 * digitVal y1 + 100 * digitVal y2 + 10 * digitVal y3 + digitVal y4
      let m := 10 * digitVal m1 + digitVal m2
      let d := 10 * digitVal d1 + digitVal d2
      if validDate ⟨y, m, d⟩ then some ⟨y, m, d⟩ else Option.none
    else Option.none
  | _ => Option.none

/-- Reinsert the fixed ISO punctuation into an 8-digit ICS date value. -/
def icsToIso (s : String) : String :=
  match s.data with
  | [a, b, c, d, e, f, g, h] => ⟨[a, b, c, d, '-', e, f, '-', g, h]⟩
  | _ => s

/-! ## Event store (spec 4.3) -/

/-- Modelled from the spec: the stored recurrence record
`{frequency, interval, next_due}` (spec section 3). -/
structure Recurrence where
  frequency : Frequency
  interval : Nat
  next_due : Date
deriving DecidableEq, Repr

/-- Modelled from the spec: an event record; `title` is the lookup key,
`date` is kept in its ISO string transport form (spec section 3). -/
structure Event where
  title : String
  date : String
  description : String
  recurrence : Option Recurrence
deriving DecidableEq, Repr

/-- Modelled from the spec: the error taxonomy distinguishing validation
failures from lookups of unknown titles (spec section 7). -/
inductive CalError
  | validation (msg : String)
  | notFound (msg : String)
deriving DecidableEq, Repr

/-- ASCII lower-casing of one character. -/
def lowerChar (c : Char) : Char :=
  if 'A' ≤ c ∧ c ≤ 'Z' then Char.ofNat (c.toNat + 32) else c

/-- Modelled from the spec: case-insensitive exact title match used by the
lookup-by-title operations (spec 9, conservative default). -/
def titleMatches (a b : String) : Bool :=
  a.data.map lowerChar == b.data.map lowerChar

/-- Modelled from the spec: `Add` inserts or overwrites by title key
(upsert, spec 4.3). -/
def addEvent (store : List Event) (e : Event) : List Event :=
  if store.any (fun x => x.title == e.title) then
    store.map (fun x => if x.title == e.title then e else x)
  else store ++ [e]

/-- Modelled from the spec: `Delete(title)` removes the matching event and
signals "not found" when no event has that title (spec 4.3). -/
def deleteEvent (store : List Event) (t : String) :
    List Event × Except CalError String :=
  if store.any (fun e => titleMatches e.title t) then
    (store.filter (fun e => !titleMatches e.title t), Except.ok "deleted")
  else
    (store, Except.error (CalError.notFound "no such event"))

/-- Modelled from the spec: `SetRecurrence(title, frequency, interval)` —
look up by title first (not-found if absent), then validate the interval
for the frequency, then compute and attach `next_due` (spec 4.3, 4.4). -/
def setRecurrence (now : Date) (store : List Event) (t : String)
    (f : Frequency) (interval : Nat) : List Event × Except CalError String :=
  match store.find? (fun e => titleMatches e.title t) with
  | Option.none => (store, Except.error (CalError.notFound "no such event"))
  | some ev =>
    match f with
    | .none =>
      (store.map (fun x => if titleMatches x.title t then
          { x with recurrence := Option.none } else x),
       Except.ok "recurrence cleared")
    | .monthly_on_day =>
      if interval < 1 || 31 < interval then
        (store, Except.error (CalError.validation "interval must be 1-31"))
      else
        let nd := monthlyOnDay interval now
        (store.map (fun x => if titleMatches x.title t then
            { x with recurrence := some ⟨f, interval, nd⟩ } else x),
         Except.ok "recurrence set")
    | _ =>
      if f = .custom && interval < 1 then
        (store, Except.error (CalError.validation "interval must be a positive integer"))
      else
        match parseISODate ev.date with
        | Option.none => (store, Except.error (CalError.validation "event has no valid date"))
        | some anchor =>
          match nextDue f interval now anchor with
          | Option.none => (store, Except.error (CalError.validation "could not compute next occurrence"))
          | some nd =>
            (store.map (fun x => if titleMatches x.title t then
                { x with recurrence := some ⟨f, interval, nd⟩ } else x),
             Except.ok "recurrence set")

/-! ## Plan builder and task materialization (spec 4.6) -/

/-- Modelled from the spec: a raw milestone as received in a `create_tasks`
payload; `title`/`due` may be missing (spec 4.6 malformation cases). -/
structure RawMilestone where
  title : Option String
  due : Option String
  steps : List String
deriving DecidableEq, Repr

/-- Modelled from the spec: the `milestones` field of a raw plan — either
not an array at all, or a list of raw milestones. -/
inductive MilestonesField
  | notArray
  | arr (ms : List RawMilestone)
deriving DecidableEq, Repr

/-- Modelled from the spec: a raw plan as received by `create_tasks`; the
`milestones` field may be absent (spec 4.6). -/
structure RawPlan where
  goal : String
  deadline : String
  milestones : Option MilestonesField
  cadence_suggestions : List String
deriving DecidableEq, Repr

/-- Modelled from the spec: a milestone becomes an event with the milestone
title, `due` as its date, and a description joined from the steps; a
milestone missing `title` or `due` yields nothing (spec 4.6). -/
def milestoneToEvent (m : RawMilestone) : Option Event :=
  match m.title, m.due with
  | some t, some due => some ⟨t, due, String.intercalate "; " m.steps, Option.none⟩
  | _, _ => Option.none

/-- Convert every milestone, failing if any single one is malformed. -/
def allMilestoneEvents : List RawMilestone → Option (List Event)
  | [] => some []
  | m :: rest =>
    match milestoneToEvent m, allMilestoneEvents rest with
    | some e, some es => some (e :: es)
    | _, _ => Option.none

/-- Modelled from the spec: `CreateTasks(plan)` — validate the whole plan,
then materialize every milestone as an `Add`; a malformed plan is rejected
wholesale with a validation error (spec 4.6, all-or-nothing). -/
def createTasks (store : List Event) (p : RawPlan) :
    List Event × Except CalError Nat :=
  match p.milestones with
  | Option.none => (store, Except.error (CalError.validation "plan missing milestones"))
  | some MilestonesField.notArray =>
    (store, Except.error (CalError.validation "milestones is not an array"))
  | some (MilestonesField.arr ms) =>
    match allMilestoneEvents ms with
    | Option.none => (store, Except.error (CalError.validation "milestone missing title or due"))
    | some evs => (evs.foldl addEvent store, Except.ok evs.length)

/-- The malformation cases enumerated by the spec for a `create_tasks`
payload: missing `milestones`, non-array `milestones`, or some milestone
missing `due` or `title` (spec 4.6). -/
def planMalformed (p : RawPlan) : Prop :=
  p.milestones = Option.none ∨
  p.milestones = some MilestonesField.notArray ∨
  ∃ ms m, p.milestones = some (MilestonesField.arr ms) ∧ m ∈ ms ∧
    (m.title = Option.none ∨ m.due = Option.none)

/-! ## Client logic, translated from `public/script.js` -/

/-- A JSON-like value, enough to describe the request payloads the client
builds with `JSON.stringify`. -/
inductive JVal
  | str (s : String)
  | num (n : Int)
  | arr (elems : List JVal)
  | obj (fields : List (String × JVal))

/-- The body of a POST to `/api/mcp`: a tool name and a key-value input
bag (`\x7b tool, input \x7d` in `script.js`). -/
structure McpRequest where
  tool : String
  input : List (String × JVal)

/-- Look up a key in a request input bag. -/
def lookupKey (bag : List (String × JVal)) (k : String) : Option JVal :=
  (bag.find? (fun p => p.1 == k)).map Prod.snd

/-- From `script.js` (the "Create tasks from plan" click handler): the body
is `JSON.stringify(\x7b tool: 'create_tasks', input: plan \x7d)` — the plan
object itself becomes the input bag. -/
def createTasksRequest (plan : List (String × JVal)) : McpRequest :=
  ⟨"create_tasks", plan⟩

/-- A well-formed plan object as rendered by the planning flow: the fields
are `goal`, `deadline`, `milestones` (an array), `cadence_suggestions`. -/
def samplePlanObj : List (String × JVal) :=
  [("goal", JVal.str "Write a short story"),
   ("deadline", JVal.str "2026-03-05"),
   ("milestones", JVal.arr
     [JVal.obj [("title", JVal.str "Outline"), ("due", JVal.str "2026-02-20"),
                ("steps", JVal.arr [JVal.str "Draft the outline"])]]),
   ("cadence_suggestions", JVal.arr [JVal.str "weekly"])]

/-- JavaScript `parseInt(s, 10)`: skip leading whitespace, read an optional
sign, then the longest run of decimal digits; NaN when no digit follows. -/
def parseIntJS (s : String) : Option Int :=
  let l := s.data.dropWhile (fun c => c.isWhitespace)
  let p : Int × List Char :=
    match l with
    | '-' :: rest => (-1, rest)
    | '+' :: rest => (1, rest)
    | _ => (1, l)
  let digits := p.2.takeWhile (fun c => c.isDigit)
  if digits.isEmpty then Option.none
  else some (p.1 * (Int.ofNat (digits.foldl (fun acc c => acc * 10 + (c.toNat - 48)) 0)))

/-- Outcome of a click on a recurrence button: either the handler returns
with no request, or it POSTs `set_recurrence` with the given payload. -/
inductive RecClickResult
  | cancelled
  | request (frequency : String) (interval : Int)
deriving DecidableEq, Repr

/-- From `script.js` `showRecurrencePrompt`: the `data-f` values of the nine
recurrence buttons, in the order they appear in the HTML template. -/
def recurrenceOptions : List String :=
  ["none", "daily", "every_other_day", "weekly", "biweekly", "weekdays",
   "monthly", "monthly_on_day", "custom"]

/-- From `script.js` `showRecurrencePrompt`'s button click handler:
`interval` starts at 1; `monthly_on_day` prompts for a day of month and
rejects non-numbers and values outside `1..31`; `custom` prompts for an
interval and rejects non-numbers and values below 1; a cancelled or empty
prompt answer returns without a request. -/
def recClick (freq : String) (ans : Option String) : RecClickResult :=
  if freq = "monthly_on_day" then
    match ans with
    | Option.none => .cancelled
    | some s =>
      if s = "" then .cancelled
      else
        match parseIntJS s with
        | Option.none => .cancelled
        | some n => if n < 1 || 31 < n then .cancelled else .request freq n
  else if freq = "custom" then
    match ans with
    | Option.none => .cancelled
    | some s =>
      if s = "" then .cancelled
      else
        match parseIntJS s with
        | Option.none => .cancelled
        | some n => if n < 1 then .cancelled else .request freq n
  else .request freq 1

/-- JavaScript `String.prototype.trim`: strip whitespace from both ends. -/
def jsTrim (s : String) : String :=
  ⟨(((s.data.dropWhile Char.isWhitespace).reverse.dropWhile Char.isWhitespace).reverse)⟩

/-- The deadline pattern from `script.js` `submitProjectGoal`:
the regular expression anchors four digits, a dash, two digits, a dash,
and two digits over the whole string. -/
def matchesIsoShape (s : String) : Bool :=
  match s.data with
  | [a, b, c, d, e, f, g, h, i, j] =>
    a.isDigit && b.isDigit && c.isDigit && d.isDigit && e == '-' &&
    f.isDigit && g.isDigit && h == '-' && i.isDigit && j.isDigit
  | _ => false

/-- Outcome of the project-goal flow: either no network call, or a
`research_and_breakdown` request carrying the goal and deadline. -/
inductive PlanRequest
  | cancelled
  | request (goal deadline : String)
deriving DecidableEq, Repr

/-- From `script.js` `submitProjectGoal`: a cancelled prompt returns; an
empty trimmed deadline returns; a trimmed deadline failing the
`YYYY-MM-DD` pattern returns; only then is `research_and_breakdown`
POSTed with the trimmed deadline. -/
def submitProjectGoal (goalText : String) (deadlineAns : Option String) : PlanRequest :=
  match deadlineAns with
  | Option.none => .cancelled
  | some dl =>
    if jsTrim dl = "" then .cancelled
    else if matchesIsoShape (jsTrim dl) then .request goalText (jsTrim dl)
    else .cancelled

/-- Replace every occurrence of the character `p` by the string `r`
(JavaScript `replaceAll` with a single-character pattern). -/
def replaceAllChar (p : Char) (r : List Char) : List Char → List Char
  | [] => []
  | c :: cs => (if c = p then r else [c]) ++ replaceAllChar p r cs

/-- From `script.js`:
`str.replaceAll('&','&amp;').replaceAll('<','&lt;').replaceAll('>','&gt;')`. -/
def escapeHtml (s : String) : String :=
  ⟨replaceAllChar '>' "&gt;".data
    (replaceAllChar '<' "&lt;".data
      (replaceAllChar '&' "&amp;".data s.data))⟩

/-- Single-pass escaping of one character, used to characterize
`escapeHtml`. -/
def escChar (c : Char) : List Char :=
  if c = '&' then "&amp;".data
  else if c = '<' then "&lt;".data
  else if c = '>' then "&gt;".data
  else [c]

/-- From `script.js` `renderMessage`: the content placed inside the
message's `div.text` node is `escapeHtml(msg.text)`; `addLocalMessage`
renders through the same function. -/
def renderMessageText (msgText : String) : String :=
  escapeHtml msgText

/-- From `script.js` `showRecurrencePrompt`: the title interpolated into
the prompt bubble goes through `escapeHtml`. -/
def recurrencePromptText (title : String) : String :=
  "Would you like reminders for \"<strong>" ++ escapeHtml title ++ "</strong>\"?"

/-- Lexicographic (year, month, day) strict order on dates. -/
def lexLt (a b : Date) : Prop :=
  a.y < b.y ∨ (a.y = b.y ∧ a.m < b.m) ∨ (a.y = b.y ∧ a.m = b.m ∧ a.d < b.d)

/-! ## Calendar ordering lemmas -/

theorem dbm_succ (y m : Nat) :
    daysBeforeMonth y (m + 1) = daysBeforeMonth y m + daysInMonth y m := rfl

theorem isLeap_iff (y : Nat) :
    isLeap y = true ↔ ((y % 4 = 0 ∧ y % 100 ≠ 0) ∨ y % 400 = 0) := by
  simp [isLeap, Bool.or_eq_true, Bool.and_eq_true, beq_iff_eq, bne_iff_ne]

theorem diy_of_leap (y : Nat) (h : isLeap y = true) : daysInYear y = 366 := by
  unfold daysInYear
  rw [h]
  decide

theorem diy_of_not_leap (y : Nat) (h : isLeap y = false) :
    daysInYear y = 365 := by
  unfold daysInYear
  rw [h]
  decide

set_option maxHeartbeats 1600000 in
theorem dby_succ (y : Nat) :
    daysBeforeYear (y + 1) = daysBeforeYear y + daysInYear y := by
  by_cases h : isLeap y = true
  · have hi : (y % 4 = 0 ∧ y % 100 ≠ 0) ∨ y % 400 = 0 := (isLeap_iff y).mp h
    rw [diy_of_leap y h]
    clear h
    unfold daysBeforeYear
    omega
  · have hf : isLeap y = false := by
      cases hh : isLeap y
      · rfl
      · exact absurd hh h
    have hi : ¬((y % 4 = 0 ∧ y % 100 ≠ 0) ∨ y % 400 = 0) := fun hc =>
      h ((isLeap_iff y).mpr hc)
    push_neg at hi
    rw [diy_of_not_leap y hf]
    clear h hf
    unfold daysBeforeYear
    omega

theorem dim_le_31 (y m : Nat) : daysInMonth y m ≤ 31 := by
  unfold daysInMonth
  split_ifs <;> omega

theorem dim_pos (y m : Nat) (h1 : 1 ≤ m) (h2 : m ≤ 12) :
    1 ≤ daysInMonth y m := by
  unfold daysInMonth
  split_ifs <;> simp_all

theorem dbm_mono (y : Nat) {a b : Nat} (h : a ≤ b) :
    daysBeforeMonth y a ≤ daysBeforeMonth y b := by
  induction b with
  | zero =>
    have : a = 0 := by omega
    subst this
    exact Nat.le_refl _
  | succ n ih =>
    by_cases hc : a ≤ n
    · exact Nat.le_trans (ih hc) (by rw [dbm_succ]; omega)
    · have : a = n + 1 := by omega
      subst this
      exact Nat.le_refl _

theorem dby_mono {a b : Nat} (h : a ≤ b) :
    daysBeforeYear a ≤ daysBeforeYear b := by
  induction b with
  | zero =>
    have : a = 0 := by omega
    subst this
    exact Nat.le_refl _
  | succ n ih =>
    by_cases hc : a ≤ n
    · exact Nat.le_trans (ih hc) (by rw [dby_succ]; omega)
    · have : a = n + 1 := by omega
      subst this
      exact Nat.le_refl _

theorem dbm_13 (y : Nat) : daysBeforeMonth y 13 = daysInYear y := by
  unfold daysInYear
  cases h : isLeap y <;> simp [daysBeforeMonth, daysInMonth, h]

theorem dbm_dim_le (y m : Nat) (h : m ≤ 12) :
    daysBeforeMonth y m + daysInMonth y m ≤ daysInYear y := by
  rw [← dbm_succ, ← dbm_13 y]
  exact dbm_mono y (by omega)

theorem validDate_fields {a : Date} (ha : validDate a = true) :
    1 ≤ a.m ∧ a.m ≤ 12 ∧ 1 ≤ a.d ∧ a.d ≤ daysInMonth a.y a.m := by
  simp only [validDate, Bool.and_eq_true, decide_eq_true_eq] at ha
  exact ⟨ha.1.1.1, ha.1.1.2, ha.1.2, ha.2⟩

theorem toRD_lt_of_lexLt {a b : Date} (ha : validDate a = true)
    (hb : validDate b = true) (h : lexLt a b) : toRD a < toRD b := by
  obtain ⟨ham1, ham2, had1, had2⟩ := validDate_fields ha
  obtain ⟨hbm1, hbm2, hbd1, hbd2⟩ := validDate_fields hb
  unfold toRD
  rcases h with hy | ⟨hy, hm⟩ | ⟨hy, hm, hd⟩
  · have s1 : daysBeforeMonth a.y a.m + a.d ≤ daysInYear a.y := by
      have := dbm_dim_le a.y a.m ham2
      omega
    have s2 : daysBeforeYear a.y + daysInYear a.y ≤ daysBeforeYear b.y := by
      rw [← dby_succ]
      exact dby_mono hy
    omega
  · rw [hy]
    have s1 : daysBeforeMonth b.y a.m + a.d ≤ daysBeforeMonth b.y b.m := by
      have t1 : daysBeforeMonth b.y a.m + daysInMonth b.y a.m =
          daysBeforeMonth b.y (a.m + 1) := (dbm_succ b.y a.m).symm
      have t2 : daysBeforeMonth b.y (a.m + 1) ≤ daysBeforeMonth b.y b.m :=
        dbm_mono b.y (by omega)
      have t3 : a.d ≤ daysInMonth b.y a.m := by rw [← hy]; exact had2
      omega
    omega
  · rw [hy, hm]
    omega

theorem lex_trichotomy (a b : Date) : lexLt a b ∨ a = b ∨ lexLt b a := by
  rcases Nat.lt_trichotomy a.y b.y with h | h | h
  · exact Or.inl (Or.inl h)
  · rcases Nat.lt_trichotomy a.m b.m with h2 | h2 | h2
    · exact Or.inl (Or.inr (Or.inl ⟨h, h2⟩))
    · rcases Nat.lt_trichotomy a.d b.d with h3 | h3 | h3
      · exact Or.inl (Or.inr (Or.inr ⟨h, h2, h3⟩))
      · refine Or.inr (Or.inl ?_)
        cases a
        cases b
        simp_all
      · exact Or.inr (Or.inr (Or.inr (Or.inr ⟨h.symm, h2.symm, h3⟩)))
    · exact Or.inr (Or.inr (Or.inr (Or.inl ⟨h.symm, h2⟩)))
  · exact Or.inr (Or.inr (Or.inl h))

theorem toRD_le_of_valid {a b : Date} (ha : validDate a = true)
    (hb : validDate b = true) (h : toRD a ≤ toRD b) : a = b ∨ lexLt a b := by
  rcases lex_trichotomy a b with hl | he | hg
  · exact Or.inr hl
  · exact Or.inl he
  · exact absurd (toRD_lt_of_lexLt hb ha hg) (by omega)

theorem nextDueAux_sound (step : Date → Date) (now : Date) :
    ∀ (fuel : Nat) (cur d : Date), nextDueAux step now fuel cur = some d →
      toRD now ≤ toRD d ∧ ∃ k : Nat, step^[k] cur = d := by
  intro fuel
  induction fuel with
  | zero =>
    intro cur d h
    simp [nextDueAux] at h
  | succ n ih =>
    intro cur d h
    by_cases hc : toRD now ≤ toRD cur
    · have : cur = d := by simpa [nextDueAux, hc] using h
      subst this
      exact ⟨hc, 0, rfl⟩
    · have h' : nextDueAux step now n (step cur) = some d := by
        simpa [nextDueAux, hc] using h
      obtain ⟨h1, k, hk⟩ := ih (step cur) d h'
      exact ⟨h1, k + 1, by rw [Function.iterate_succ_apply]; exact hk⟩

theorem valid_clamped (y m target : Nat) (ht : 1 ≤ target) (h1 : 1 ≤ m)
    (h2 : m ≤ 12) : validDate ⟨y, m, clampDay y m target⟩ = true := by
  have hd := dim_pos y m h1 h2
  simp only [validDate, clampDay, Bool.and_eq_true, decide_eq_true_eq]
  refine ⟨⟨⟨h1, h2⟩, ?_⟩, ?_⟩ <;> omega

/-! ## Claim theorems -/

/-- C2: for every stepping frequency (daily, every_other_day, weekly,
biweekly, weekdays, monthly, custom), a computed `next_due` is on/after
"now" and is reached from the anchor date by a whole number of the
frequency's fixed steps; in particular, `set_recurrence` with frequency
weekly and interval 1, anchor 2026-02-01 and now 2026-02-10 yields
next_due 2026-02-15. -/
theorem C2_next_due_stepping :
    (∀ (f : Frequency) (i : Nat) (now anchor d : Date),
        steppingFreq f = true → nextDue f i now anchor = some d →
        toRD now ≤ toRD d ∧ ∃ k : Nat, (stepOnceFor f i)^[k] anchor = d)
    ∧ nextDue Frequency.weekly 1 ⟨2026, 2, 10⟩ ⟨2026, 2, 1⟩ =
        some ⟨2026, 2, 15⟩ := by
  constructor
  · intro f i now anchor d _ h
    exact nextDueAux_sound (stepOnceFor f i) now 1000 anchor d h
  · decide

/-- Witness for C2 at the spec's scenario: weekly recurrence, anchor
2026-02-01, now 2026-02-10, next_due 2026-02-15. -/
theorem C2_next_due_stepping_witness :
    steppingFreq Frequency.weekly = true ∧
    nextDue Frequency.weekly 1 ⟨2026, 2, 10⟩ ⟨2026, 2, 1⟩ =
      some ⟨2026, 2, 15⟩ ∧
    (toRD ⟨2026, 2, 10⟩ ≤ toRD (⟨2026, 2, 15⟩ : Date) ∧
      ∃ k : Nat, (stepOnceFor Frequency.weekly 1)^[k] ⟨2026, 2, 1⟩ =
        (⟨2026, 2, 15⟩ : Date)) :=
  ⟨by decide, by decide,
    C2_next_due_stepping.1 Frequency.weekly 1 ⟨2026, 2, 10⟩ ⟨2026, 2, 1⟩
      ⟨2026, 2, 15⟩ (by decide) (by decide)⟩

/-- C3: `monthly_on_day` with a target day in 1–31 yields the soonest date
on/after "now" whose day-of-month is the target day clamped to the month's
length (so interval 31 against a 30-day month resolves to the 30th), and
the result is always a valid calendar date. -/
theorem C3_monthly_on_day (target : Nat) (now : Date)
    (hnow : validDate now = true) (ht1 : 1 ≤ target) (ht2 : target ≤ 31) :
    validDate (monthlyOnDay target now) = true ∧
    (monthlyOnDay target now).d =
      min target
        (daysInMonth (monthlyOnDay target now).y (monthlyOnDay target now).m) ∧
    toRD now ≤ toRD (monthlyOnDay target now) ∧
    (∀ e : Date, validDate e = true →
      e.d = min target (daysInMonth e.y e.m) →
      toRD now ≤ toRD e → toRD (monthlyOnDay target now) ≤ toRD e) := by
  obtain ⟨ny, nm, nd⟩ := now
  have hf := validDate_fields hnow
  have hm1 : 1 ≤ nm := hf.1
  have hm2 : nm ≤ 12 := hf.2.1
  have hcv : validDate ⟨ny, nm, clampDay ny nm target⟩ = true :=
    valid_clamped ny nm target ht1 hm1 hm2
  simp only [monthlyOnDay]
  by_cases hcase : toRD ⟨ny, nm, nd⟩ ≤ toRD ⟨ny, nm, clampDay ny nm target⟩
  · rw [if_pos hcase]
    refine ⟨hcv, by simp [clampDay], hcase, ?_⟩
    intro e he hed her
    obtain ⟨ey, em, ed⟩ := e
    have hed2 : ed = min target (daysInMonth ey em) := hed
    have her2 : toRD ⟨ny, nm, nd⟩ ≤ toRD ⟨ey, em, ed⟩ := her
    rcases lex_trichotomy ⟨ny, nm, clampDay ny nm target⟩ ⟨ey, em, ed⟩ with hl | heq | hg
    · exact Nat.le_of_lt (toRD_lt_of_lexLt hcv he hl)
    · rw [heq]
    · exfalso
      rcases hg with hy | ⟨hy, hmo⟩ | ⟨hy, hmo, hdd⟩
      · have hy2 : ey < ny := hy
        exact absurd (toRD_lt_of_lexLt he hnow (Or.inl hy2)) (by omega)
      · have hy2 : ey = ny := hy
        have hmo2 : em < nm := hmo
        exact absurd (toRD_lt_of_lexLt he hnow (Or.inr (Or.inl ⟨hy2, hmo2⟩)))
          (by omega)
      · have hy2 : ey = ny := hy
        have hmo2 : em = nm := hmo
        have hdd2 : ed < clampDay ny nm target := hdd
        rw [hy2, hmo2] at hed2
        simp only [clampDay] at hdd2
        omega
  · rw [if_neg hcase]
    have hclt : toRD ⟨ny, nm, clampDay ny nm target⟩ < toRD ⟨ny, nm, nd⟩ := by
      omega
    by_cases h12 : nm = 12
    · subst h12
      have hcv2 : validDate ⟨ny + 1, 1, clampDay (ny + 1) 1 target⟩ = true :=
        valid_clamped _ _ _ ht1 (by omega) (by omega)
      refine ⟨hcv2, ?_, ?_, ?_⟩
      · show clampDay (ny + 1) 1 target =
          min target (daysInMonth (ny + 1) 1)
        simp [clampDay]
      · show toRD ⟨ny, 12, nd⟩ ≤ toRD ⟨ny + 1, 1, clampDay (ny + 1) 1 target⟩
        exact Nat.le_of_lt
          (toRD_lt_of_lexLt hnow hcv2 (Or.inl (show ny < ny + 1 by omega)))
      · intro e he hed her
        obtain ⟨ey, em, ed⟩ := e
        have hef := validDate_fields he
        have hem1 : 1 ≤ em := hef.1
        have hem2 : em ≤ 12 := hef.2.1
        have hed2 : ed = min target (daysInMonth ey em) := hed
        have her2 : toRD ⟨ny, 12, nd⟩ ≤ toRD ⟨ey, em, ed⟩ := her
        show toRD ⟨ny + 1, 1, clampDay (ny + 1) 1 target⟩ ≤ toRD ⟨ey, em, ed⟩
        rcases lex_trichotomy ⟨ny + 1, 1, clampDay (ny + 1) 1 target⟩ ⟨ey, em, ed⟩
          with hl | heq | hg
        · exact Nat.le_of_lt (toRD_lt_of_lexLt hcv2 he hl)
        · rw [heq]
        · exfalso
          rcases hg with hy | ⟨hy, hmo⟩ | ⟨hy, hmo, hdd⟩
          · have hy2 : ey < ny + 1 := hy
            rcases Nat.lt_or_ge ey ny with q | q
            · exact absurd (toRD_lt_of_lexLt he hnow (Or.inl q)) (by omega)
            · have hey : ey = ny := by omega
              rcases Nat.lt_trichotomy em 12 with r | r | r
              · exact absurd
                  (toRD_lt_of_lexLt he hnow (Or.inr (Or.inl ⟨hey, r⟩)))
                  (by omega)
              · have hedc : ed = clampDay ny 12 target := by
                  rw [hed2, hey, r]
                  simp [clampDay]
                have heq2 : toRD ⟨ey, em, ed⟩ =
                    toRD ⟨ny, 12, clampDay ny 12 target⟩ := by
                  rw [hey, r, hedc]
                omega
              · omega
          · have hy2 : ey = ny + 1 := hy
            have hmo2 : em < 1 := hmo
            omega
          · have hy2 : ey = ny + 1 := hy
            have hmo2 : em = 1 := hmo
            have hdd2 : ed < clampDay (ny + 1) 1 target := hdd
            rw [hy2, hmo2] at hed2
            simp only [clampDay] at hdd2
            omega
    · have hnp : nextMonthOf ny nm = (ny, nm + 1) := by
        simp [nextMonthOf, h12]
      rw [hnp]
      have hcv2 : validDate ⟨ny, nm + 1, clampDay ny (nm + 1) target⟩ = true :=
        valid_clamped _ _ _ ht1 (by omega) (by omega)
      refine ⟨hcv2, ?_, ?_, ?_⟩
      · show clampDay ny (nm + 1) target =
          min target (daysInMonth ny (nm + 1))
        simp [clampDay]
      · show toRD ⟨ny, nm, nd⟩ ≤ toRD ⟨ny, nm + 1, clampDay ny (nm + 1) target⟩
        exact Nat.le_of_lt
          (toRD_lt_of_lexLt hnow hcv2
            (Or.inr (Or.inl ⟨rfl, show nm < nm + 1 by omega⟩)))
      · intro e he hed her
        obtain ⟨ey, em, ed⟩ := e
        have hef := validDate_fields he
        have hem1 : 1 ≤ em := hef.1
        have hem2 : em ≤ 12 := hef.2.1
        have hed2 : ed = min target (daysInMonth ey em) := hed
        have her2 : toRD ⟨ny, nm, nd⟩ ≤ toRD ⟨ey, em, ed⟩ := her
        show toRD ⟨ny, nm + 1, clampDay ny (nm + 1) target⟩ ≤ toRD ⟨ey, em, ed⟩
        rcases lex_trichotomy ⟨ny, nm + 1, clampDay ny (nm + 1) target⟩ ⟨ey, em, ed⟩
          with hl | heq | hg
        · exact Nat.le_of_lt (toRD_lt_of_lexLt hcv2 he hl)
        · rw [heq]
        · exfalso
          rcases hg with hy | ⟨hy, hmo⟩ | ⟨hy, hmo, hdd⟩
          · have hy2 : ey < ny := hy
            exact absurd (toRD_lt_of_lexLt he hnow (Or.inl hy2)) (by omega)
          · have hy2 : ey = ny := hy
            have hmo2 : em < nm + 1 := hmo
            rcases Nat.lt_trichotomy em nm with r | r | r
            · exact absurd
                (toRD_lt_of_lexLt he hnow (Or.inr (Or.inl ⟨hy2, r⟩)))
                (by omega)
            · have hedc : ed = clampDay ny nm target := by
                rw [hed2, hy2, r]
                simp [clampDay]
              have heq2 : toRD ⟨ey, em, ed⟩ =
                  toRD ⟨ny, nm, clampDay ny nm target⟩ := by
                rw [hy2, r, hedc]
              omega
            · omega
          · have hy2 : ey = ny := hy
            have hmo2 : em = nm + 1 := hmo
            have hdd2 : ed < clampDay ny (nm + 1) target := hdd
            rw [hy2, hmo2] at hed2
            simp only [clampDay] at hdd2
            omega

theorem milestoneToEvent_eq_none {m : RawMilestone}
    (hbad : m.title = Option.none ∨ m.due = Option.none) :
    milestoneToEvent m = Option.none := by
  obtain ⟨mt, md, msteps⟩ := m
  rcases hbad with h | h
  · have h2 : mt = Option.none := h
    subst h2
    rfl
  · have h2 : md = Option.none := h
    subst h2
    cases mt <;> rfl

theorem allMilestoneEvents_eq_none {ms : List RawMilestone} {m : RawMilestone}
    (hm : m ∈ ms) (hbad : m.title = Option.none ∨ m.due = Option.none) :
    allMilestoneEvents ms = Option.none := by
  induction ms with
  | nil => cases hm
  | cons a rest ih =>
    rcases List.mem_cons.mp hm with heq | hmem
    · subst heq
      unfold allMilestoneEvents
      rw [milestoneToEvent_eq_none hbad]
    · unfold allMilestoneEvents
      rw [ih hmem]
      cases milestoneToEvent a <;> rfl

/-- C4: `CreateTasks` is all-or-nothing — a malformed plan (missing
`milestones`, non-array `milestones`, or some milestone missing `due` or
`title`) is rejected with a validation error and the event store is left
completely unchanged. -/
theorem C4_create_tasks_all_or_nothing (store : List Event) (p : RawPlan)
    (hp : planMalformed p) :
    (createTasks store p).1 = store ∧
    ∃ msg, (createTasks store p).2 = Except.error (CalError.validation msg) := by
  rcases hp with h | h | ⟨ms, m, hms, hmem, hbad⟩
  · unfold createTasks
    rw [h]
    exact ⟨rfl, "plan missing milestones", rfl⟩
  · unfold createTasks
    rw [h]
    exact ⟨rfl, "milestones is not an array", rfl⟩
  · have hall := allMilestoneEvents_eq_none hmem hbad
    simp only [createTasks, hms, hall]
    exact ⟨trivial, "milestone missing title or due", rfl⟩

/-- Witness for C4: a plan whose only milestone lacks a title is rejected
and leaves a one-event store untouched. -/
theorem C4_create_tasks_all_or_nothing_witness :
    planMalformed ⟨"Ship the feature", "2026-03-05",
      some (MilestonesField.arr [⟨Option.none, some "2026-02-20", []⟩]), []⟩ ∧
    ((createTasks [⟨"Existing", "2026-01-01", "keep me", Option.none⟩]
        ⟨"Ship the feature", "2026-03-05",
          some (MilestonesField.arr [⟨Option.none, some "2026-02-20", []⟩]),
          []⟩).1 =
      [⟨"Existing", "2026-01-01", "keep me", Option.none⟩] ∧
      ∃ msg, (createTasks [⟨"Existing", "2026-01-01", "keep me", Option.none⟩]
        ⟨"Ship the feature", "2026-03-05",
          some (MilestonesField.arr [⟨Option.none, some "2026-02-20", []⟩]),
          []⟩).2 = Except.error (CalError.validation msg)) := by
  have hmal : planMalformed ⟨"Ship the feature", "2026-03-05",
      some (MilestonesField.arr [⟨Option.none, some "2026-02-20", []⟩]), []⟩ :=
    Or.inr (Or.inr ⟨[⟨Option.none, some "2026-02-20", []⟩],
      ⟨Option.none, some "2026-02-20", []⟩, rfl, List.Mem.head _, Or.inl rfl⟩)
  exact ⟨hmal, C4_create_tasks_all_or_nothing _ _ hmal⟩

/-- C5: deleting an unknown title and setting recurrence on an unknown
title both report the distinct "no such event" not-found condition, leave
the store unchanged, and are never conflated with a validation failure. -/
theorem C5_not_found_distinct (now : Date) (store : List Event) (t : String)
    (f : Frequency) (i : Nat)
    (habs : store.any (fun e => titleMatches e.title t) = false) :
    deleteEvent store t =
      (store, Except.error (CalError.notFound "no such event")) ∧
    setRecurrence now store t f i =
      (store, Except.error (CalError.notFound "no such event")) ∧
    (∀ m1 m2 : String, CalError.notFound m1 ≠ CalError.validation m2) := by
  have hfind : store.find? (fun e => titleMatches e.title t) = Option.none := by
    rw [List.find?_eq_none]
    intro x hx
    rw [List.any_eq_false] at habs
    exact habs x hx
  refine ⟨?_, ?_, ?_⟩
  · unfold deleteEvent
    rw [habs]
    rfl
  · unfold setRecurrence
    rw [hfind]
  · intro m1 m2 h
    cases h

/-- Witness for C5: one-event store, lookup of the absent title "Ghost". -/
theorem C5_not_found_distinct_witness :
    ([⟨"Party", "2026-05-01", "", Option.none⟩] : List Event).any
        (fun e => titleMatches e.title "Ghost") = false ∧
    (deleteEvent [⟨"Party", "2026-05-01", "", Option.none⟩] "Ghost" =
      ([⟨"Party", "2026-05-01", "", Option.none⟩],
        Except.error (CalError.notFound "no such event")) ∧
      setRecurrence ⟨2026, 1, 1⟩ [⟨"Party", "2026-05-01", "", Option.none⟩]
          "Ghost" Frequency.weekly 1 =
        ([⟨"Party", "2026-05-01", "", Option.none⟩],
          Except.error (CalError.notFound "no such event")) ∧
      (∀ m1 m2 : String, CalError.notFound m1 ≠ CalError.validation m2)) :=
  ⟨by decide,
    C5_not_found_distinct ⟨2026, 1, 1⟩
      [⟨"Party", "2026-05-01", "", Option.none⟩] "Ghost" Frequency.weekly 1
      (by decide)⟩

/-- Witness for C3: target day 31 against April 2026 (a 30-day month)
clamps to 2026-04-30. -/
theorem C3_monthly_on_day_witness :
    monthlyOnDay 31 ⟨2026, 4, 10⟩ = ⟨2026, 4, 30⟩ ∧
    validDate (⟨2026, 4, 10⟩ : Date) = true ∧ 1 ≤ 31 ∧ 31 ≤ 31 ∧
    (validDate (monthlyOnDay 31 ⟨2026, 4, 10⟩) = true ∧
      (monthlyOnDay 31 ⟨2026, 4, 10⟩).d =
        min 31 (daysInMonth (monthlyOnDay 31 ⟨2026, 4, 10⟩).y
          (monthlyOnDay 31 ⟨2026, 4, 10⟩).m) ∧
      toRD ⟨2026, 4, 10⟩ ≤ toRD (monthlyOnDay 31 ⟨2026, 4, 10⟩) ∧
      (∀ e : Date, validDate e = true →
        e.d = min 31 (daysInMonth e.y e.m) →
        toRD ⟨2026, 4, 10⟩ ≤ toRD e →
        toRD (monthlyOnDay 31 ⟨2026, 4, 10⟩) ≤ toRD e)) :=
  ⟨by decide, by decide, by decide, by decide,
    C3_monthly_on_day 31 ⟨2026, 4, 10⟩ (by decide) (by decide) (by decide)⟩

/-- C1: the "Create tasks from plan" click handler builds the request body
`\x7b tool: 'create_tasks', input: plan \x7d`, so the input bag it sends is
the plan object itself — it contains `goal`/`deadline`/`milestones` keys
but no `plan` key, contradicting the documented payload shape
`\x7b tool, input: \x7b plan \x7d \x7d`. -/
theorem C1_create_tasks_payload_missing_plan_key :
    (createTasksRequest samplePlanObj).tool = "create_tasks" ∧
    lookupKey (createTasksRequest samplePlanObj).input "plan" = Option.none ∧
    (lookupKey (createTasksRequest samplePlanObj).input "milestones").isSome
      = true :=
  ⟨rfl, rfl, rfl⟩

/-- C6: every `set_recurrence` request the recurrence prompt sends carries
an interval validated for its frequency — in `1..31` for `monthly_on_day`
and `≥ 1` for `custom`, and always the exact `parseInt` result, never a
clamped or coerced value; out-of-range answers produce no request. -/
theorem C6_interval_validation :
    (∀ (freq : String) (ans : Option String) (f : String) (i : Int),
        recClick freq ans = RecClickResult.request f i →
        f = freq ∧
        (freq = "monthly_on_day" →
          1 ≤ i ∧ i ≤ 31 ∧ ∃ s, ans = some s ∧ parseIntJS s = some i) ∧
        (freq = "custom" →
          1 ≤ i ∧ ∃ s, ans = some s ∧ parseIntJS s = some i)) ∧
    (∀ (s : String) (n : Int), parseIntJS s = some n → ¬(1 ≤ n ∧ n ≤ 31) →
        recClick "monthly_on_day" (some s) = RecClickResult.cancelled) ∧
    (∀ (s : String) (n : Int), parseIntJS s = some n → n < 1 →
        recClick "custom" (some s) = RecClickResult.cancelled) := by
  refine ⟨?_, ?_, ?_⟩
  · intro freq ans f i h
    unfold recClick at h
    by_cases h1 : freq = "monthly_on_day"
    · rw [if_pos h1] at h
      cases ans with
      | none => cases h
      | some s =>
        dsimp only at h
        by_cases h2 : s = ""
        · rw [if_pos h2] at h
          cases h
        · rw [if_neg h2] at h
          cases hp : parseIntJS s with
          | none =>
            rw [hp] at h
            cases h
          | some n =>
            rw [hp] at h
            dsimp only at h
            by_cases h3 : (decide (n < 1) || decide (31 < n)) = true
            · rw [if_pos h3] at h
              cases h
            · rw [if_neg h3] at h
              simp only [Bool.or_eq_true, decide_eq_true_eq] at h3
              push_neg at h3
              injection h with hf hi
              subst hf
              subst hi
              refine ⟨rfl, fun _ => ⟨by omega, by omega, s, rfl, hp⟩, fun hc => ?_⟩
              rw [h1] at hc
              exact absurd hc (by decide)
    · rw [if_neg h1] at h
      by_cases h4 : freq = "custom"
      · rw [if_pos h4] at h
        cases ans with
        | none => cases h
        | some s =>
          dsimp only at h
          by_cases h2 : s = ""
          · rw [if_pos h2] at h
            cases h
          · rw [if_neg h2] at h
            cases hp : parseIntJS s with
            | none =>
              rw [hp] at h
              cases h
            | some n =>
              rw [hp] at h
              dsimp only at h
              by_cases h3 : n < 1
              · rw [if_pos h3] at h
                cases h
              · rw [if_neg h3] at h
                injection h with hf hi
                subst hf
                subst hi
                refine ⟨rfl, fun hc => ?_, fun _ => ⟨by omega, s, rfl, hp⟩⟩
                rw [h4] at hc
                exact absurd hc (by decide)
      · rw [if_neg h4] at h
        injection h with hf hi
        subst hf
        subst hi
        exact ⟨rfl, fun hc => absurd hc h1, fun hc => absurd hc h4⟩
  · intro s n hp hr
    unfold recClick
    rw [if_pos rfl]
    dsimp only
    by_cases h2 : s = ""
    · rw [if_pos h2]
    · rw [if_neg h2, hp]
      have h3 : (decide (n < 1) || decide (31 < n)) = true := by
        simp only [Bool.or_eq_true, decide_eq_true_eq]
        omega
      dsimp only
      rw [if_pos h3]
  · intro s n hp hr
    unfold recClick
    rw [if_neg (by decide : ¬("custom" = "monthly_on_day")), if_pos rfl]
    dsimp only
    by_cases h2 : s = ""
    · rw [if_pos h2]
    · rw [if_neg h2, hp]
      dsimp only
      rw [if_pos hr]

/-- Witness for C6: the answer "40" for `monthly_on_day` is refused (no
request is sent), and the answer "15" produces a request carrying exactly
the parsed value 15. -/
theorem C6_interval_validation_witness :
    (parseIntJS "40" = some 40 ∧ ¬((1:Int) ≤ 40 ∧ (40:Int) ≤ 31) ∧
      recClick "monthly_on_day" (some "40") = RecClickResult.cancelled) ∧
    (recClick "monthly_on_day" (some "15") =
        RecClickResult.request "monthly_on_day" 15 ∧
      ("monthly_on_day" = "monthly_on_day" ∧
        ("monthly_on_day" = "monthly_on_day" →
          1 ≤ (15:Int) ∧ (15:Int) ≤ 31 ∧
            ∃ s, (some "15" : Option String) = some s ∧
              parseIntJS s = some 15) ∧
        ("monthly_on_day" = "custom" →
          1 ≤ (15:Int) ∧ ∃ s, (some "15" : Option String) = some s ∧
            parseIntJS s = some 15))) :=
  ⟨⟨by decide, by decide,
      C6_interval_validation.2.1 "40" 40 (by decide) (by decide)⟩,
    ⟨by decide,
      C6_interval_validation.1 "monthly_on_day" (some "15") "monthly_on_day"
        15 (by decide)⟩⟩

/-- C8: the recurrence prompt offers exactly the nine frequencies `none`,
`daily`, `every_other_day`, `weekly`, `biweekly`, `weekdays`, `monthly`,
`monthly_on_day`, `custom`; every frequency other than `monthly_on_day`
and `custom` is sent with the default interval 1. -/
theorem C8_frequency_vocabulary :
    recurrenceOptions = ["none", "daily", "every_other_day", "weekly",
      "biweekly", "weekdays", "monthly", "monthly_on_day", "custom"] ∧
    (∀ f, f ∈ recurrenceOptions → f ≠ "monthly_on_day" → f ≠ "custom" →
      ∀ ans, recClick f ans = RecClickResult.request f 1) := by
  refine ⟨rfl, ?_⟩
  intro f hf h1 h2 ans
  unfold recClick
  rw [if_neg h1, if_neg h2]

/-- Witness for C8: the "weekly" button sends interval 1 regardless of any
prompt answer. -/
theorem C8_frequency_vocabulary_witness :
    ("weekly" ∈ recurrenceOptions ∧ "weekly" ≠ "monthly_on_day" ∧
      "weekly" ≠ "custom") ∧
    recClick "weekly" Option.none = RecClickResult.request "weekly" 1 :=
  ⟨⟨by decide, by decide, by decide⟩,
    C8_frequency_vocabulary.2 "weekly" (by decide) (by decide) (by decide)
      Option.none⟩

theorem rac_append (p : Char) (r l1 l2 : List Char) :
    replaceAllChar p r (l1 ++ l2) =
      replaceAllChar p r l1 ++ replaceAllChar p r l2 := by
  induction l1 with
  | nil => rfl
  | cons c cs ih =>
    show (if c = p then r else [c]) ++ replaceAllChar p r (cs ++ l2) =
      ((if c = p then r else [c]) ++ replaceAllChar p r cs) ++
        replaceAllChar p r l2
    rw [ih, List.append_assoc]

theorem escape_head (c : Char) :
    replaceAllChar '>' "&gt;".data
      (replaceAllChar '<' "&lt;".data
        (replaceAllChar '&' "&amp;".data [c])) = escChar c := by
  by_cases h1 : c = '&'
  · subst h1
    decide
  · by_cases h2 : c = '<'
    · subst h2
      decide
    · by_cases h3 : c = '>'
      · subst h3
        decide
      · simp [replaceAllChar, escChar, h1, h2, h3]

theorem escape_chain (l : List Char) :
    replaceAllChar '>' "&gt;".data
      (replaceAllChar '<' "&lt;".data
        (replaceAllChar '&' "&amp;".data l)) = (l.map escChar).join := by
  induction l with
  | nil => rfl
  | cons c cs ih =>
    have hsplit : replaceAllChar '&' "&amp;".data (c :: cs) =
        replaceAllChar '&' "&amp;".data [c] ++
          replaceAllChar '&' "&amp;".data cs := by
      rw [show (c :: cs : List Char) = [c] ++ cs from rfl, rac_append]
    rw [hsplit, rac_append, rac_append, escape_head, ih]
    simp

theorem escChar_no_markup (c : Char) : '<' ∉ escChar c ∧ '>' ∉ escChar c := by
  unfold escChar
  by_cases h1 : c = '&'
  · rw [if_pos h1]
    decide
  · rw [if_neg h1]
    by_cases h2 : c = '<'
    · rw [if_pos h2]
      decide
    · rw [if_neg h2]
      by_cases h3 : c = '>'
      · rw [if_pos h3]
        decide
      · rw [if_neg h3]
        refine ⟨fun hm => ?_, fun hm => ?_⟩
        · exact h2 (List.mem_singleton.mp hm).symm
        · exact h3 (List.mem_singleton.mp hm).symm

theorem escapeHtml_no_markup (s : String) :
    '<' ∉ (escapeHtml s).data ∧ '>' ∉ (escapeHtml s).data := by
  have h : (escapeHtml s).data = (s.data.map escChar).join := escape_chain s.data
  refine ⟨?_, ?_⟩
  · rw [h]
    intro hm
    rcases List.mem_join.mp hm with ⟨li, hli, hc⟩
    rcases List.mem_map.mp hli with ⟨c, hcm, rfl⟩
    exact (escChar_no_markup c).1 hc
  · rw [h]
    intro hm
    rcases List.mem_join.mp hm with ⟨li, hli, hc⟩
    rcases List.mem_map.mp hli with ⟨c, hcm, rfl⟩
    exact (escChar_no_markup c).2 hc

theorem digitChar_isDigit : ∀ k : Nat, k < 10 → (digitChar k).isDigit = true := by
  decide

theorem digitVal_digitChar : ∀ k : Nat, k < 10 → digitVal (digitChar k) = k := by
  decide

/-- C7: for every valid calendar date, parsing its ISO `YYYY-MM-DD`
rendering yields the date back, parsing the ICS codec's `YYYYMMDD`
rendering yields the date back, and the ICS rendering carries exactly the
ISO rendering's digits (reinserting the fixed dashes recovers it) — the
parse/format pair is a round-trip identity on valid dates. -/
theorem C7_date_roundtrip (dt : Date) (hv : validDate dt = true)
    (hy : dt.y ≤ 9999) :
    parseISODate (formatISODate dt) = some dt ∧
    parseICSDate (formatICSDate dt) = some dt ∧
    icsToIso (formatICSDate dt) = formatISODate dt := by
  obtain ⟨y, m, d⟩ := dt
  have hyb : y ≤ 9999 := hy
  have hf := validDate_fields hv
  have hm1 : 1 ≤ m := hf.1
  have hm2 : m ≤ 12 := hf.2.1
  have hd1 : 1 ≤ d := hf.2.2.1
  have hd31 : d ≤ 31 := Nat.le_trans hf.2.2.2 (dim_le_31 y m)
  have q1 : y / 1000 % 10 < 10 := Nat.mod_lt _ (by omega)
  have q2 : y / 100 % 10 < 10 := Nat.mod_lt _ (by omega)
  have q3 : y / 10 % 10 < 10 := Nat.mod_lt _ (by omega)
  have q4 : y % 10 < 10 := Nat.mod_lt _ (by omega)
  have q5 : m / 10 % 10 < 10 := Nat.mod_lt _ (by omega)
  have q6 : m % 10 < 10 := Nat.mod_lt _ (by omega)
  have q7 : d / 10 % 10 < 10 := Nat.mod_lt _ (by omega)
  have q8 : d % 10 < 10 := Nat.mod_lt _ (by omega)
  have hY : 1000 * (y / 1000 % 10) + 100 * (y / 100 % 10) +
      10 * (y / 10 % 10) + y % 10 = y := by omega
  have hM : 10 * (m / 10 % 10) + m % 10 = m := by omega
  have hD : 10 * (d / 10 % 10) + d % 10 = d := by omega
  refine ⟨?_, ?_, rfl⟩
  · unfold parseISODate formatISODate
    dsimp only
    rw [digitChar_isDigit _ q1, digitChar_isDigit _ q2, digitChar_isDigit _ q3,
      digitChar_isDigit _ q4, digitChar_isDigit _ q5, digitChar_isDigit _ q6,
      digitChar_isDigit _ q7, digitChar_isDigit _ q8,
      digitVal_digitChar _ q1, digitVal_digitChar _ q2, digitVal_digitChar _ q3,
      digitVal_digitChar _ q4, digitVal_digitChar _ q5, digitVal_digitChar _ q6,
      digitVal_digitChar _ q7, digitVal_digitChar _ q8, hY, hM, hD]
    simp only [beq_self_eq_true, Bool.and_self, Bool.true_and, Bool.and_true,
      if_true, eq_self_iff_true]
    rw [if_pos hv]
  · unfold parseICSDate formatICSDate
    dsimp only
    rw [digitChar_isDigit _ q1, digitChar_isDigit _ q2, digitChar_isDigit _ q3,
      digitChar_isDigit _ q4, digitChar_isDigit _ q5, digitChar_isDigit _ q6,
      digitChar_isDigit _ q7, digitChar_isDigit _ q8,
      digitVal_digitChar _ q1, digitVal_digitChar _ q2, digitVal_digitChar _ q3,
      digitVal_digitChar _ q4, digitVal_digitChar _ q5, digitVal_digitChar _ q6,
      digitVal_digitChar _ q7, digitVal_digitChar _ q8, hY, hM, hD]
    simp only [Bool.and_self, Bool.true_and, Bool.and_true, if_true,
      eq_self_iff_true]
    rw [if_pos hv]

/-- Witness for C7 at 2026-02-01: parse/format round-trips through both the
ISO and the ICS date renderings. -/
theorem C7_date_roundtrip_witness :
    validDate (⟨2026, 2, 1⟩ : Date) = true ∧ (2026 : Nat) ≤ 9999 ∧
    (parseISODate (formatISODate ⟨2026, 2, 1⟩) = some ⟨2026, 2, 1⟩ ∧
      parseICSDate (formatICSDate ⟨2026, 2, 1⟩) = some ⟨2026, 2, 1⟩ ∧
      icsToIso (formatICSDate ⟨2026, 2, 1⟩) = formatISODate ⟨2026, 2, 1⟩) :=
  ⟨by decide, by decide, C7_date_roundtrip ⟨2026, 2, 1⟩ (by decide) (by decide)⟩

/-- C9: every message text rendered into the chat log goes through
`escapeHtml`, which rewrites each `&` to `&amp;`, `<` to `&lt;` and `>` to
`&gt;` (exactly the single-pass per-character escaping, with no double
processing), so the rendered text and the recurrence prompt's interpolated
title contain no raw `<` or `>`. -/
theorem C9_escape_html_invariant (s : String) :
    escapeHtml s = ⟨(s.data.map escChar).join⟩ ∧
    '<' ∉ (renderMessageText s).data ∧
    '>' ∉ (renderMessageText s).data ∧
    recurrencePromptText s =
      "Would you like reminders for \"<strong>" ++ escapeHtml s ++
        "</strong>\"?" := by
  refine ⟨?_, ?_, ?_, rfl⟩
  · exact congrArg String.mk (escape_chain s.data)
  · exact (escapeHtml_no_markup s).1
  · exact (escapeHtml_no_markup s).2

/-- C10: `submitProjectGoal` issues a `research_and_breakdown` request only
when the trimmed deadline matches the `YYYY-MM-DD` pattern; a cancelled
prompt, an empty trimmed deadline, or a non-matching deadline produces no
request, so no plan request carries a malformed deadline. -/
theorem C10_deadline_guard :
    (∀ (g : String) (a : Option String) (g2 t : String),
        submitProjectGoal g a = PlanRequest.request g2 t →
        g2 = g ∧ matchesIsoShape t = true ∧
          ∃ dl, a = some dl ∧ t = jsTrim dl) ∧
    (∀ g : String, submitProjectGoal g Option.none = PlanRequest.cancelled) ∧
    (∀ (g dl : String),
        jsTrim dl = "" ∨ matchesIsoShape (jsTrim dl) = false →
        submitProjectGoal g (some dl) = PlanRequest.cancelled) := by
  refine ⟨?_, ?_, ?_⟩
  · intro g a g2 t h
    unfold submitProjectGoal at h
    cases a with
    | none => cases h
    | some dl =>
      dsimp only at h
      by_cases h2 : jsTrim dl = ""
      · rw [if_pos h2] at h
        cases h
      · rw [if_neg h2] at h
        by_cases h3 : matchesIsoShape (jsTrim dl) = true
        · rw [if_pos h3] at h
          injection h with hg ht
          exact ⟨hg.symm, ht ▸ h3, dl, rfl, ht.symm⟩
        · rw [if_neg h3] at h
          cases h
  · intro g
    rfl
  · intro g dl hbad
    unfold submitProjectGoal
    dsimp only
    by_cases h2 : jsTrim dl = ""
    · rw [if_pos h2]
    · rcases hbad with h | h
      · exact absurd h h2
      · rw [if_neg h2, if_neg (by simp [h])]

/-- Witness for C10: the deadline answer " 2026-03-05 " (with spaces) is
trimmed and accepted; the answer "next week" produces no request. -/
theorem C10_deadline_guard_witness :
    (submitProjectGoal "Learn piano" (some " 2026-03-05 ") =
        PlanRequest.request "Learn piano" "2026-03-05" ∧
      ("Learn piano" = "Learn piano" ∧
        matchesIsoShape "2026-03-05" = true ∧
        ∃ dl, (some " 2026-03-05 " : Option String) = some dl ∧
          "2026-03-05" = jsTrim dl)) ∧
    (matchesIsoShape (jsTrim "next week") = false ∧
      submitProjectGoal "Learn piano" (some "next week") =
        PlanRequest.cancelled) :=
  ⟨⟨by decide,
      C10_deadline_guard.1 "Learn piano" (some " 2026-03-05 ") "Learn piano"
        "2026-03-05" (by decide)⟩,
    ⟨by decide,
      C10_deadline_guard.2.2 "Learn piano" "next week"
        (Or.inr (by decide))⟩⟩

end CalendarMcp

